import Mathlib

/-!
Shallow embedding of `src/main.rs` of the f1-led-circuit-master-simulation
repository (the egui `PlotApp` playback engine and frame compositor).

Modelling conventions:
* `DateTime<Utc>` and `Instant` are modelled as `ℤ` (milliseconds on an
  abstract clock); `Duration::from_millis` is an `ℤ` coercion of a `ℕ`.
* `u64` arithmetic on `time_delta` wraps modulo `2 ^ 64`, as in a Rust
  release build (`total_time_delta += data.time_delta`).
* `f64` coordinate values are modelled as exact rationals `ℚ`.  On the
  normalization path, where division by a zero width matters, values are
  modelled by `FVal`, rationals extended with the IEEE-754 special values
  `+inf`, `-inf` and `NaN`, and the IEEE special-case rules for
  subtraction, division, multiplication, `min` and `max`.
* The `f64 -> i64` cast in `scale_f64` truncates toward zero and
  saturates at the `i64` range, as Rust `as` casts do.
* `HashMap` is modelled as an association list whose `insert` replaces
  any existing binding of the key, so each key is bound at most once;
  lookups are order-independent, matching `HashMap` semantics.
* Each call site of `Instant::now()` / `Utc::now()` becomes an explicit
  argument of the modelled function.
-/

/-- Rust `struct LedCoordinate { x_led: f64, y_led: f64 }` (main.rs 12-16). -/
structure LedCoordinate where
  x_led : ℚ
  y_led : ℚ
deriving DecidableEq

/-- Rust `struct RunRace` (main.rs 18-25): one telemetry event. -/
structure RunRace where
  date : ℤ
  driver_number : ℕ
  x_led : ℚ
  y_led : ℚ
  time_delta : ℕ
deriving DecidableEq

/-- Model of `egui::Color32` as an RGBA quadruple. -/
structure Color32 where
  r : ℕ
  g : ℕ
  b : ℕ
  a : ℕ
deriving DecidableEq

/-- Model of `egui::Color32::from_rgb` (opaque color). -/
def Color32.from_rgb (r g b : ℕ) : Color32 :=
  ⟨r, g, b, 255⟩

/-- Model of `egui::Color32::WHITE`. -/
def Color32.WHITE : Color32 :=
  Color32.from_rgb 255 255 255

/-- Model of `egui::Color32::BLACK`. -/
def Color32.BLACK : Color32 :=
  Color32.from_rgb 0 0 0

/-- Rust `struct PlotApp` (main.rs 27-36). -/
structure PlotApp where
  coordinates : List LedCoordinate
  run_race_data : List RunRace
  start_time : ℤ
  start_datetime : ℤ
  race_started : Bool
  colors : List (ℕ × Color32)
  current_index : ℕ
  next_update_time : ℤ
deriving DecidableEq

/-- The `u64` wrap-around modulus. -/
def u64Mod : ℕ := 2 ^ 64

/-- The loop of `calculate_next_update_time` (main.rs 64-67): `total_time_delta`
accumulated over `run_race_data.iter().take(n)` with `u64` wrap-around. -/
def totalTimeDelta (events : List RunRace) (n : ℕ) : ℕ :=
  (events.take n).foldl (fun acc data => (acc + data.time_delta) % u64Mod) 0

/-- Rust `PlotApp::calculate_next_update_time` (main.rs 62-70): when
`run_race_data.get(current_index)` is `Some`, set `next_update_time` to
`start_datetime + Duration::from_millis(total_time_delta)`; otherwise do
nothing. -/
def PlotApp.calculate_next_update_time (s : PlotApp) : PlotApp :=
  if s.current_index < s.run_race_data.length then
    { s with next_update_time :=
        s.start_datetime + (totalTimeDelta s.run_race_data (s.current_index + 1) : ℤ) }
  else
    s

/-- Rust `PlotApp::new` (main.rs 39-52): `instNow`, `utcNow`, `utcNow2` are the
three clock reads (`Instant::now()`, `Utc::now()` for `start_datetime`,
`Utc::now()` for the initial `next_update_time`). -/
def PlotApp.new (coordinates : List LedCoordinate) (run_race_data : List RunRace)
    (colors : List (ℕ × Color32)) (instNow utcNow utcNow2 : ℤ) : PlotApp :=
  (PlotApp.mk coordinates run_race_data instNow utcNow false colors 0
    utcNow2).calculate_next_update_time

/-- Rust `PlotApp::reset` (main.rs 54-60). -/
def PlotApp.reset (s : PlotApp) (instNow utcNow : ℤ) : PlotApp :=
  ({ s with
      start_time := instNow
      start_datetime := utcNow
      race_started := false
      current_index := 0 }).calculate_next_update_time

/-- The `START` button handler inside `PlotApp::update` (main.rs 115-121):
the spec's `start()` operation. -/
def PlotApp.start (s : PlotApp) (instNow utcNow : ℤ) : PlotApp :=
  ({ s with
      race_started := true
      start_time := instNow
      start_datetime := utcNow
      current_index := 0 }).calculate_next_update_time

/-- Rust `PlotApp::update_race` (main.rs 72-83): the spec's `tick(now)`
operation.  `now` is the `Utc::now()` read at line 74. -/
def PlotApp.update_race (s : PlotApp) (now : ℤ) : PlotApp :=
  if s.race_started then
    if s.next_update_time ≤ now then
      let s1 := { s with current_index := s.current_index + 1 }
      if s1.current_index < s1.run_race_data.length then
        s1.calculate_next_update_time
      else
        s1
    else
      s
  else
    s

/-- Truncation of a rational toward zero (the rounding of a Rust
`f64 as i64` cast, before saturation). -/
def ratTruncTowardZero (q : ℚ) : ℤ :=
  q.num.tdiv (q.den : ℤ)

/-- Rust `PlotApp::scale_f64` (main.rs 85-87): `(value * scale as f64) as i64`,
truncating toward zero and saturating at the `i64` range. -/
def scale_f64 (value : ℚ) (scale : ℤ) : ℤ :=
  let t := ratTruncTowardZero (value * (scale : ℚ))
  if t < -(2 ^ 63) then -(2 ^ 63) else if 2 ^ 63 - 1 < t then 2 ^ 63 - 1 else t

/-- The binding `let scale_factor = 1_000_000;` (main.rs 130). -/
def scale_factor : ℤ := 1000000

/-- The quantized coordinate key of an event (main.rs 135-138). -/
def coordKey (run_data : RunRace) : ℤ × ℤ :=
  (scale_f64 run_data.x_led scale_factor, scale_f64 run_data.y_led scale_factor)

/-- The lookup `self.colors.get(&run_data.driver_number).copied().unwrap_or(Color32::WHITE)`
(main.rs 133). -/
def colorGet (colors : List (ℕ × Color32)) (driver_number : ℕ) : Color32 :=
  ((colors.find? fun p => decide (p.1 = driver_number)).map (fun p => p.2)).getD Color32.WHITE

/-- Model of `HashMap::insert`: bind `k` to `v`, replacing any existing binding. -/
def insertKV (m : List ((ℤ × ℤ) × Color32)) (k : ℤ × ℤ) (v : Color32) :
    List ((ℤ × ℤ) × Color32) :=
  (k, v) :: m.filter fun p => decide (p.1 ≠ k)

/-- Model of `HashMap::get`: the value bound to `k`, if any. -/
def lookupKV (m : List ((ℤ × ℤ) × Color32)) (k : ℤ × ℤ) : Option Color32 :=
  (m.find? fun p => decide (p.1 = k)).map fun p => p.2

/-- The `led_colors` map built by the compositor loop (main.rs 129-141)
as a function of the event list, the cursor and the color table. -/
def ledColorsMap (events : List RunRace) (n : ℕ) (colors : List (ℕ × Color32)) :
    List ((ℤ × ℤ) × Color32) :=
  (events.take n).foldl
    (fun led_colors run_data =>
      insertKV led_colors (coordKey run_data) (colorGet colors run_data.driver_number))
    []

/-- The `led_colors` map of the current app state (main.rs 129-141). -/
def led_colors (s : PlotApp) : List ((ℤ × ℤ) × Color32) :=
  ledColorsMap s.run_race_data s.current_index s.colors

/-- The most recent already-consumed event whose quantized position is `k`:
the specification-side description of what `led_colors` binds `k` to. -/
def lastEventAt (events : List RunRace) (n : ℕ) (k : ℤ × ℤ) : Option RunRace :=
  (events.take n).reverse.find? fun r => decide (coordKey r = k)

/-- Rationals extended with the IEEE-754 special values, for the
normalization path where a zero-width layout divides by zero. -/
inductive FVal where
  | fin : ℚ → FVal
  | posInf : FVal
  | negInf : FVal
  | nan : FVal
deriving DecidableEq

/-- IEEE-754 subtraction on `FVal`. -/
def FVal.fsub : FVal → FVal → FVal
  | nan, _ => nan
  | _, nan => nan
  | fin a, fin b => fin (a - b)
  | fin _, posInf => negInf
  | fin _, negInf => posInf
  | posInf, fin _ => posInf
  | posInf, posInf => nan
  | posInf, negInf => posInf
  | negInf, fin _ => negInf
  | negInf, posInf => negInf
  | negInf, negInf => nan

/-- IEEE-754 division on `FVal`: a nonzero finite value divided by (positive)
zero gives a signed infinity, zero divided by zero gives `NaN`. -/
def FVal.fdiv : FVal → FVal → FVal
  | nan, _ => nan
  | _, nan => nan
  | fin a, fin b =>
      if b = 0 then
        if a = 0 then nan else if 0 < a then posInf else negInf
      else fin (a / b)
  | fin _, posInf => fin 0
  | fin _, negInf => fin 0
  | posInf, fin b => if 0 ≤ b then posInf else negInf
  | negInf, fin b => if 0 ≤ b then negInf else posInf
  | posInf, posInf => nan
  | posInf, negInf => nan
  | negInf, posInf => nan
  | negInf, negInf => nan

/-- IEEE-754 multiplication on `FVal`. -/
def FVal.fmul : FVal → FVal → FVal
  | nan, _ => nan
  | _, nan => nan
  | fin a, fin b => fin (a * b)
  | fin a, posInf => if a = 0 then nan else if 0 < a then posInf else negInf
  | fin a, negInf => if a = 0 then nan else if 0 < a then negInf else posInf
  | posInf, fin b => if b = 0 then nan else if 0 < b then posInf else negInf
  | negInf, fin b => if b = 0 then nan else if 0 < b then negInf else posInf
  | posInf, posInf => posInf
  | posInf, negInf => negInf
  | negInf, posInf => negInf
  | negInf, negInf => posInf

/-- Model of `f64::min` on `FVal` (a `NaN` argument yields the other argument). -/
def FVal.fmin : FVal → FVal → FVal
  | nan, b => b
  | a, nan => a
  | fin a, fin b => fin (if a ≤ b then a else b)
  | negInf, _ => negInf
  | _, negInf => negInf
  | posInf, b => b
  | a, posInf => a

/-- Model of `f64::max` on `FVal` (a `NaN` argument yields the other argument). -/
def FVal.fmax : FVal → FVal → FVal
  | nan, b => b
  | a, nan => a
  | fin a, fin b => fin (if b ≤ a then a else b)
  | posInf, _ => posInf
  | _, posInf => posInf
  | negInf, b => b
  | a, negInf => a

/-- The `(min_x, max_x)` fold over the coordinates (main.rs 96-98),
starting from `(f64::INFINITY, f64::NEG_INFINITY)`. -/
def xBounds (coordinates : List LedCoordinate) : FVal × FVal :=
  coordinates.foldl
    (fun p coord => (p.1.fmin (FVal.fin coord.x_led), p.2.fmax (FVal.fin coord.x_led)))
    (FVal.posInf, FVal.negInf)

/-- The `(min_y, max_y)` fold over the coordinates (main.rs 99-101). -/
def yBounds (coordinates : List LedCoordinate) : FVal × FVal :=
  coordinates.foldl
    (fun p coord => (p.1.fmin (FVal.fin coord.y_led), p.2.fmax (FVal.fin coord.y_led)))
    (FVal.posInf, FVal.negInf)

/-- The binding `let width = max_x - min_x;` (main.rs 103). -/
def widthOf (coordinates : List LedCoordinate) : FVal :=
  (xBounds coordinates).2.fsub (xBounds coordinates).1

/-- The binding `let height = max_y - min_y;` (main.rs 104). -/
def heightOf (coordinates : List LedCoordinate) : FVal :=
  (yBounds coordinates).2.fsub (yBounds coordinates).1

/-- The expression `norm_x = ((x - min_x) / width) as f32 * ui.available_width()`
(main.rs 144, 158); the `as f32` cast is value-preserving in the model. -/
def normX (minX width aw : FVal) (x : ℚ) : FVal :=
  (((FVal.fin x).fsub minX).fdiv width).fmul aw

/-- The expression `norm_y = ui.available_height() - (((y - min_y) / height) as f32 *
ui.available_height())` (main.rs 145, 159). -/
def normY (minY height ah : FVal) (y : ℚ) : FVal :=
  ah.fsub ((((FVal.fin y).fsub minY).fdiv height).fmul ah)

/-- One `painter.rect_filled` call: position and fill color. -/
structure DrawRect where
  x : FVal
  y : FVal
  color : Color32
deriving DecidableEq

/-- The black rectangles drawn for every grid coordinate (main.rs 143-155). -/
def gridDraws (s : PlotApp) (aw ah : FVal) : List DrawRect :=
  s.coordinates.map fun coord =>
    { x := normX (xBounds s.coordinates).1 (widthOf s.coordinates) aw coord.x_led
      y := normY (yBounds s.coordinates).1 (heightOf s.coordinates) ah coord.y_led
      color := Color32.BLACK }

/-- The colored rectangles drawn for every `led_colors` entry
(main.rs 157-169): the key is dequantized by `x as f64 / scale_factor as f64`. -/
def ledDraws (s : PlotApp) (aw ah : FVal) : List DrawRect :=
  (led_colors s).map fun kv =>
    { x := normX (xBounds s.coordinates).1 (widthOf s.coordinates) aw
        ((kv.1.1 : ℚ) / (scale_factor : ℚ))
      y := normY (yBounds s.coordinates).1 (heightOf s.coordinates) ah
        ((kv.1.2 : ℚ) / (scale_factor : ℚ))
      color := kv.2 }

/-- All rectangles emitted by one frame of the central panel, in draw
order: the black grid pass (main.rs 143-155) then the led pass
(main.rs 157-169). -/
def drawInstructions (s : PlotApp) (aw ah : FVal) : List DrawRect :=
  gridDraws s aw ah ++ ledDraws s aw ah

/-- One frame of `PlotApp::update` (main.rs 91-173), restricted to the
playback and compositing work: advance the race, then emit the frame's
rectangles. -/
def PlotApp.update (s : PlotApp) (now : ℤ) (aw ah : FVal) :
    PlotApp × List DrawRect :=
  let s1 := s.update_race now
  (s1, drawInstructions s1 aw ah)

/-- The states reachable from construction through the `START` handler,
`reset` (the `STOP` handler) and `update_race`. -/
inductive Reachable : PlotApp → Prop
  | new (coordinates : List LedCoordinate) (run_race_data : List RunRace)
      (colors : List (ℕ × Color32)) (instNow utcNow utcNow2 : ℤ) :
      Reachable (PlotApp.new coordinates run_race_data colors instNow utcNow utcNow2)
  | start (s : PlotApp) (instNow utcNow : ℤ) :
      Reachable s → Reachable (s.start instNow utcNow)
  | reset (s : PlotApp) (instNow utcNow : ℤ) :
      Reachable s → Reachable (s.reset instNow utcNow)
  | tick (s : PlotApp) (now : ℤ) :
      Reachable s → Reachable (s.update_race now)


/-! ### Concrete fixtures used by witnesses and counterexamples -/

/-- A nondegenerate two-point grid. -/
def exampleCoords : List LedCoordinate := [⟨0, 0⟩, ⟨1, 1⟩]

/-- A one-event log: driver 1 at position `(5, 5)`, `time_delta` 100 ms. -/
def exampleEvents : List RunRace := [⟨0, 1, 5, 5, 100⟩]

/-- The app freshly constructed at time 0. -/
def exampleApp : PlotApp := PlotApp.new exampleCoords exampleEvents [] 0 0 0

/-- The app after pressing `START` at time 0. -/
def exampleStarted : PlotApp := exampleApp.start 0 0

/-- After one tick at `now = 150 ≥ 100`: the single event is consumed,
`current_index = 1 = len`. -/
def exampleConsumed : PlotApp := exampleStarted.update_race 150

/-- One further tick at `now = 200`: the cursor runs past the end. -/
def exampleOverrun : PlotApp := exampleConsumed.update_race 200

/-- A zero-width grid: both points share `x_led = 1`. -/
def degenerateCoords : List LedCoordinate := [⟨1, 0⟩, ⟨1, 5⟩]

/-- The app over the zero-width grid. -/
def degenerateApp : PlotApp := PlotApp.new degenerateCoords exampleEvents [] 0 0 0

/-! ### Helper lemmas about `calculate_next_update_time` -/

lemma calc_coordinates (s : PlotApp) :
    s.calculate_next_update_time.coordinates = s.coordinates := by
  unfold PlotApp.calculate_next_update_time
  split <;> rfl

lemma calc_run_race_data (s : PlotApp) :
    s.calculate_next_update_time.run_race_data = s.run_race_data := by
  unfold PlotApp.calculate_next_update_time
  split <;> rfl

lemma calc_start_time (s : PlotApp) :
    s.calculate_next_update_time.start_time = s.start_time := by
  unfold PlotApp.calculate_next_update_time
  split <;> rfl

lemma calc_start_datetime (s : PlotApp) :
    s.calculate_next_update_time.start_datetime = s.start_datetime := by
  unfold PlotApp.calculate_next_update_time
  split <;> rfl

lemma calc_race_started (s : PlotApp) :
    s.calculate_next_update_time.race_started = s.race_started := by
  unfold PlotApp.calculate_next_update_time
  split <;> rfl

lemma calc_colors (s : PlotApp) :
    s.calculate_next_update_time.colors = s.colors := by
  unfold PlotApp.calculate_next_update_time
  split <;> rfl

lemma calc_current_index (s : PlotApp) :
    s.calculate_next_update_time.current_index = s.current_index := by
  unfold PlotApp.calculate_next_update_time
  split <;> rfl

lemma calc_deadline_of_lt (s : PlotApp) (h : s.current_index < s.run_race_data.length) :
    s.calculate_next_update_time.next_update_time =
      s.start_datetime + (totalTimeDelta s.run_race_data (s.current_index + 1) : ℤ) := by
  unfold PlotApp.calculate_next_update_time
  rw [if_pos h]

lemma calc_of_oob (s : PlotApp) (h : s.run_race_data.length ≤ s.current_index) :
    s.calculate_next_update_time = s := by
  unfold PlotApp.calculate_next_update_time
  rw [if_neg (by omega)]

/-! ### Helper lemmas about `update_race` -/

lemma update_race_not_started (s : PlotApp) (now : ℤ) (h : s.race_started = false) :
    s.update_race now = s := by
  unfold PlotApp.update_race
  rw [h]
  rfl

lemma update_race_early (s : PlotApp) (now : ℤ) (h : s.race_started = true)
    (h2 : now < s.next_update_time) : s.update_race now = s := by
  unfold PlotApp.update_race
  rw [h, if_pos rfl, if_neg (by omega)]

lemma update_race_due (s : PlotApp) (now : ℤ) (h : s.race_started = true)
    (h2 : s.next_update_time ≤ now) :
    s.update_race now =
      if s.current_index + 1 < s.run_race_data.length then
        ({ s with current_index := s.current_index + 1 }).calculate_next_update_time
      else
        { s with current_index := s.current_index + 1 } := by
  unfold PlotApp.update_race
  rw [h, if_pos rfl, if_pos h2]

/-! ### Helper lemmas about `totalTimeDelta` -/

lemma foldl_wrap_sum (l : List RunRace) (acc : ℕ) (hacc : acc < u64Mod) :
    l.foldl (fun a data => (a + data.time_delta) % u64Mod) acc
      = (acc + (l.map RunRace.time_delta).sum) % u64Mod := by
  induction l generalizing acc with
  | nil => simpa using (Nat.mod_eq_of_lt hacc).symm
  | cons d t ih =>
      have hm : (acc + d.time_delta) % u64Mod < u64Mod :=
        Nat.mod_lt _ (by norm_num [u64Mod])
      simp only [List.foldl_cons, List.map_cons, List.sum_cons]
      rw [ih _ hm, Nat.mod_add_mod, Nat.add_assoc]

lemma totalTimeDelta_eq_sum_mod (events : List RunRace) (n : ℕ) :
    totalTimeDelta events n = ((events.take n).map RunRace.time_delta).sum % u64Mod := by
  simpa using foldl_wrap_sum (events.take n) 0 (by norm_num [u64Mod])

/-! ### Helper lemmas about the association-list model of `led_colors` -/

lemma find?_filter_ne (m : List ((ℤ × ℤ) × Color32)) (k k' : ℤ × ℤ) (h : k' ≠ k) :
    (m.filter fun p => decide (p.1 ≠ k)).find? (fun p => decide (p.1 = k'))
      = m.find? fun p => decide (p.1 = k') := by
  rw [List.find?_filter]
  congr 1
  funext p
  by_cases hb : p.1 = k'
  · have hk : p.1 ≠ k := fun hk2 => h (hb ▸ hk2 ▸ rfl)
    simp [hb, hk, h]
  · simp [hb]

lemma lookupKV_insertKV (m : List ((ℤ × ℤ) × Color32)) (k k' : ℤ × ℤ) (v : Color32) :
    lookupKV (insertKV m k v) k' = if k' = k then some v else lookupKV m k' := by
  by_cases h : k' = k
  · simp [lookupKV, insertKV, List.find?_cons, h]
  · unfold lookupKV insertKV
    have h2 : decide ((k, v).1 = k') = false := by
      simp only [decide_eq_false_iff_not]
      exact fun hk => h (hk ▸ rfl)
    simp only [List.find?_cons, h2]
    rw [find?_filter_ne m k k' h, if_neg h]

lemma lookup_ledFold (colors : List (ℕ × Color32)) (l : List RunRace)
    (m : List ((ℤ × ℤ) × Color32)) (k : ℤ × ℤ) :
    lookupKV
        (l.foldl
          (fun acc run_data =>
            insertKV acc (coordKey run_data) (colorGet colors run_data.driver_number)) m) k
      = (l.reverse.find? fun r => decide (coordKey r = k)).elim (lookupKV m k)
          (fun r => some (colorGet colors r.driver_number)) := by
  induction l generalizing m with
  | nil => rfl
  | cons r t ih =>
      simp only [List.foldl_cons, List.reverse_cons, List.find?_append]
      rw [ih]
      cases hf : t.reverse.find? fun r => decide (coordKey r = k) with
      | some r' => simp [hf, Option.elim]
      | none =>
          simp only [hf, Option.none_or, Option.elim]
          rw [lookupKV_insertKV]
          by_cases hk : coordKey r = k
          · simp [List.find?_cons, hk]
          · have : k ≠ coordKey r := fun hk2 => hk (hk2 ▸ rfl)
            simp [List.find?_cons, hk, this]

lemma lookup_ledColorsMap (events : List RunRace) (n : ℕ) (colors : List (ℕ × Color32))
    (k : ℤ × ℤ) :
    lookupKV (ledColorsMap events n colors) k
      = (lastEventAt events n k).map fun r => colorGet colors r.driver_number := by
  rw [ledColorsMap, lastEventAt, lookup_ledFold]
  cases (events.take n).reverse.find? fun r => decide (coordKey r = k) <;>
    simp [Option.elim, lookupKV]

lemma pairwise_keys_insertKV (m : List ((ℤ × ℤ) × Color32)) (k : ℤ × ℤ) (v : Color32)
    (h : m.Pairwise fun p q => p.1 ≠ q.1) :
    (insertKV m k v).Pairwise fun p q => p.1 ≠ q.1 := by
  unfold insertKV
  refine List.Pairwise.cons ?_ (List.Pairwise.filter _ h)
  intro p hp
  have := List.of_mem_filter hp
  simp only [decide_eq_true_eq] at this
  exact fun hk => this (hk ▸ rfl)

lemma pairwise_keys_ledFold (colors : List (ℕ × Color32)) (l : List RunRace)
    (m : List ((ℤ × ℤ) × Color32)) (h : m.Pairwise fun p q => p.1 ≠ q.1) :
    (l.foldl
        (fun acc run_data =>
          insertKV acc (coordKey run_data) (colorGet colors run_data.driver_number)) m).Pairwise
      fun p q => p.1 ≠ q.1 := by
  induction l generalizing m with
  | nil => exact h
  | cons r t ih => exact ih _ (pairwise_keys_insertKV _ _ _ h)

lemma lookup_of_mem (m : List ((ℤ × ℤ) × Color32)) (kv : (ℤ × ℤ) × Color32)
    (hp : m.Pairwise fun p q => p.1 ≠ q.1) (hm : kv ∈ m) :
    lookupKV m kv.1 = some kv.2 := by
  induction m with
  | nil => cases hm
  | cons a t ih =>
      rcases List.mem_cons.mp hm with h | h
      · subst h
        simp [lookupKV, List.find?_cons]
      · have hne : a.1 ≠ kv.1 := (List.pairwise_cons.mp hp).1 kv h
        have : (decide (a.1 = kv.1)) = false := by simpa using hne
        simp only [lookupKV, List.find?_cons, this]
        exact ih (List.pairwise_cons.mp hp).2 h

lemma mem_of_lookup (m : List ((ℤ × ℤ) × Color32)) (k : ℤ × ℤ) (c : Color32)
    (h : lookupKV m k = some c) : (k, c) ∈ m := by
  unfold lookupKV at h
  cases hf : m.find? fun p => decide (p.1 = k) with
  | none => rw [hf] at h; cases h
  | some p =>
      rw [hf] at h
      have hmem := List.mem_of_find?_eq_some hf
      have hkey : p.1 = k := by simpa using List.find?_some hf
      have hval : p.2 = c := by simpa using h
      have : p = (k, c) := Prod.ext hkey hval
      exact this ▸ hmem

lemma led_colors_pairwise (s : PlotApp) :
    (led_colors s).Pairwise fun p q => p.1 ≠ q.1 :=
  pairwise_keys_ledFold _ _ _ List.Pairwise.nil

lemma ledColorsMap_date_irrelevant (events : List RunRace) (n : ℕ)
    (colors : List (ℕ × Color32)) (f : RunRace → ℤ) :
    ledColorsMap
        (events.map fun r =>
          RunRace.mk (f r) r.driver_number r.x_led r.y_led r.time_delta) n colors
      = ledColorsMap events n colors := by
  unfold ledColorsMap
  rw [← List.map_take, List.foldl_map]
  rfl

/-! ### Evaluation helpers for `scale_f64` on integer-valued rationals -/

lemma ratTruncTowardZero_intCast (n : ℤ) : ratTruncTowardZero (n : ℚ) = n := by
  simp [ratTruncTowardZero]

lemma scale_f64_int (n s : ℤ) (h1 : -(2 ^ 63) ≤ n * s) (h2 : n * s ≤ 2 ^ 63 - 1) :
    scale_f64 (n : ℚ) s = n * s := by
  have h : (n : ℚ) * (s : ℚ) = ((n * s : ℤ) : ℚ) := by push_cast; ring
  simp only [scale_f64, h, ratTruncTowardZero_intCast]
  omega

/-! ### The deadline invariant along reachable states -/

lemma calc_inv (t : PlotApp) :
    t.calculate_next_update_time.current_index
        < t.calculate_next_update_time.run_race_data.length →
      t.calculate_next_update_time.next_update_time
        = t.calculate_next_update_time.start_datetime
            + (totalTimeDelta t.calculate_next_update_time.run_race_data
                (t.calculate_next_update_time.current_index + 1) : ℤ) := by
  intro h
  rw [calc_current_index, calc_run_race_data] at h
  rw [calc_deadline_of_lt t h, calc_start_datetime, calc_run_race_data, calc_current_index]

lemma race_not_started_of_ne_true (s : PlotApp) (h : ¬ s.race_started = true) :
    s.race_started = false := by
  revert h
  cases s.race_started <;> simp

lemma reachable_deadline (s : PlotApp) (h : Reachable s)
    (hc : s.current_index < s.run_race_data.length) :
    s.next_update_time
      = s.start_datetime + (totalTimeDelta s.run_race_data (s.current_index + 1) : ℤ) := by
  induction h with
  | new coordinates run_race_data colors instNow utcNow utcNow2 => exact calc_inv _ hc
  | start s instNow utcNow hs ih => exact calc_inv _ hc
  | reset s instNow utcNow hs ih => exact calc_inv _ hc
  | tick s now hs ih =>
      by_cases hr : s.race_started = true
      · by_cases hd : s.next_update_time ≤ now
        · rw [update_race_due s now hr hd] at hc ⊢
          by_cases hlt : s.current_index + 1 < s.run_race_data.length
          · rw [if_pos hlt] at hc ⊢
            exact calc_inv _ hc
          · rw [if_neg hlt] at hc ⊢
            exact absurd hc hlt
        · rw [update_race_early s now hr (by omega)] at hc ⊢
          exact ih hc
      · rw [update_race_not_started s now (race_not_started_of_ne_true s hr)] at hc ⊢
        exact ih hc

/-! ### Repeated ticks on an idle engine -/

lemma ticks_noop (t : PlotApp) (h : t.race_started = false) (nows : List ℤ) :
    nows.foldl PlotApp.update_race t = t := by
  induction nows with
  | nil => rfl
  | cons a l ih => rw [List.foldl_cons, update_race_not_started t a h, ih]

/-! ### Claim theorems: playback engine -/

/-- C2: for every reachable state whose cursor is a valid index into the
event log, `next_update_time` equals `start_datetime` plus the cumulative
`time_delta` of the events at indices `0..=current_index`, as recomputed
by the full prefix fold of `calculate_next_update_time` (with `u64`
wrap-around; absent wrap-around it is the plain prefix sum). -/
theorem reachable_deadline_eq_cumulative_delay (s : PlotApp) (h : Reachable s)
    (hc : s.current_index < s.run_race_data.length) :
    s.next_update_time
        = s.start_datetime + (totalTimeDelta s.run_race_data (s.current_index + 1) : ℤ) ∧
      (((s.run_race_data.take (s.current_index + 1)).map RunRace.time_delta).sum < u64Mod →
        s.next_update_time
          = s.start_datetime
              + (((s.run_race_data.take (s.current_index + 1)).map RunRace.time_delta).sum
                  : ℤ)) := by
  refine ⟨reachable_deadline s h hc, fun hsum => ?_⟩
  rw [reachable_deadline s h hc, totalTimeDelta_eq_sum_mod, Nat.mod_eq_of_lt hsum]

/-- C2 witness: the invariant evaluated on `exampleStarted` (cursor 0,
deadline `0 + 100`). -/
theorem reachable_deadline_eq_cumulative_delay_witness :
    Reachable exampleStarted ∧
      exampleStarted.current_index < exampleStarted.run_race_data.length ∧
      (exampleStarted.next_update_time
          = exampleStarted.start_datetime
              + (totalTimeDelta exampleStarted.run_race_data
                  (exampleStarted.current_index + 1) : ℤ) ∧
        (((exampleStarted.run_race_data.take
                (exampleStarted.current_index + 1)).map RunRace.time_delta).sum < u64Mod →
          exampleStarted.next_update_time
            = exampleStarted.start_datetime
                + (((exampleStarted.run_race_data.take
                      (exampleStarted.current_index + 1)).map RunRace.time_delta).sum : ℤ))) :=
  ⟨Reachable.start exampleApp 0 0
      (Reachable.new exampleCoords exampleEvents [] 0 0 0),
    by decide,
    reachable_deadline_eq_cumulative_delay exampleStarted
      (Reachable.start exampleApp 0 0 (Reachable.new exampleCoords exampleEvents [] 0 0 0))
      (by decide)⟩

/-- C3: while running, a tick with `now` strictly before `next_update_time`
leaves the cursor unchanged, and a tick with `now` at or after
`next_update_time` increments the cursor by exactly one. -/
theorem tick_single_step (s : PlotApp) (now : ℤ) (h : s.race_started = true) :
    (now < s.next_update_time →
        (s.update_race now).current_index = s.current_index) ∧
      (s.next_update_time ≤ now →
        (s.update_race now).current_index = s.current_index + 1) := by
  constructor
  · intro h2
    rw [update_race_early s now h h2]
  · intro h2
    rw [update_race_due s now h h2]
    by_cases hlt : s.current_index + 1 < s.run_race_data.length
    · rw [if_pos hlt, calc_current_index]
    · rw [if_neg hlt]

/-- C3 witness: on `exampleStarted` (deadline 100), a tick at 150
advances the cursor from 0 to 1 (and the early-tick implication is
vacuously available). -/
theorem tick_single_step_witness :
    exampleStarted.race_started = true ∧
      ((150 < exampleStarted.next_update_time →
          (exampleStarted.update_race 150).current_index = exampleStarted.current_index) ∧
        (exampleStarted.next_update_time ≤ 150 →
          (exampleStarted.update_race 150).current_index
            = exampleStarted.current_index + 1)) :=
  ⟨by decide, tick_single_step exampleStarted 150 (by decide)⟩

/-- C7: the `START` handler always succeeds, also when already running:
it sets `race_started`, resets the start clocks to now, resets the cursor
to 0, and (when the log is nonempty) recomputes `next_update_time` from
the cumulative delays starting at index 0. -/
theorem start_always_restarts (s : PlotApp) (instNow utcNow : ℤ) :
    (s.start instNow utcNow).race_started = true ∧
      (s.start instNow utcNow).start_time = instNow ∧
      (s.start instNow utcNow).start_datetime = utcNow ∧
      (s.start instNow utcNow).current_index = 0 ∧
      (0 < s.run_race_data.length →
        (s.start instNow utcNow).next_update_time
          = utcNow + (totalTimeDelta s.run_race_data 1 : ℤ)) := by
  unfold PlotApp.start
  refine ⟨?_, ?_, ?_, ?_, fun hlen => ?_⟩
  · rw [calc_race_started]
  · rw [calc_start_time]
  · rw [calc_start_datetime]
  · rw [calc_current_index]
  · rw [calc_deadline_of_lt _ (by simpa using hlen)]

/-- C7 witness: restarting mid-playback from `exampleConsumed` at clocks
`(7, 9)`. -/
theorem start_always_restarts_witness :
    (exampleConsumed.start 7 9).race_started = true ∧
      (exampleConsumed.start 7 9).start_time = 7 ∧
      (exampleConsumed.start 7 9).start_datetime = 9 ∧
      (exampleConsumed.start 7 9).current_index = 0 ∧
      (0 < exampleConsumed.run_race_data.length →
        (exampleConsumed.start 7 9).next_update_time
          = 9 + (totalTimeDelta exampleConsumed.run_race_data 1 : ℤ)) :=
  start_always_restarts exampleConsumed 7 9

/-- C8: `reset` at any cursor returns the cursor to 0 and `race_started`
to `false`, and any sequence of subsequent ticks before the next `START`
leaves the state unchanged. -/
theorem reset_idle_and_tick_noop (s : PlotApp) (instNow utcNow : ℤ) :
    (s.reset instNow utcNow).current_index = 0 ∧
      (s.reset instNow utcNow).race_started = false ∧
      ∀ nows : List ℤ,
        nows.foldl PlotApp.update_race (s.reset instNow utcNow) = s.reset instNow utcNow := by
  have hr : (s.reset instNow utcNow).race_started = false := by
    unfold PlotApp.reset
    rw [calc_race_started]
  refine ⟨?_, hr, fun nows => ticks_noop _ hr nows⟩
  unfold PlotApp.reset
  rw [calc_current_index]

/-- C9: `calculate_next_update_time` is the identity whenever the cursor
is out of bounds; hence `start` and `reset` on an empty event log reset
the cursor and the start clocks but leave `next_update_time` unchanged. -/
theorem calculate_noop_when_cursor_out_of_bounds (s : PlotApp) (instNow utcNow : ℤ) :
    (s.run_race_data.length ≤ s.current_index → s.calculate_next_update_time = s) ∧
      (s.run_race_data = [] →
        (s.start instNow utcNow).next_update_time = s.next_update_time ∧
          (s.start instNow utcNow).current_index = 0 ∧
          (s.start instNow utcNow).start_datetime = utcNow ∧
          (s.start instNow utcNow).start_time = instNow ∧
          (s.reset instNow utcNow).next_update_time = s.next_update_time ∧
          (s.reset instNow utcNow).current_index = 0 ∧
          (s.reset instNow utcNow).start_datetime = utcNow ∧
          (s.reset instNow utcNow).start_time = instNow) := by
  refine ⟨fun h => calc_of_oob s h, fun hE => ?_⟩
  unfold PlotApp.start PlotApp.reset
  rw [calc_of_oob _ (by simp [hE]), calc_of_oob _ (by simp [hE])]
  exact ⟨rfl, rfl, rfl, rfl, rfl, rfl, rfl, rfl⟩

/-- C9 witness: an app over the empty event log, started at clocks
`(3, 4)`: the deadline keeps its construction-time value 11. -/
theorem calculate_noop_when_cursor_out_of_bounds_witness :
    (((PlotApp.new exampleCoords [] [] 0 0 11).run_race_data.length
          ≤ (PlotApp.new exampleCoords [] [] 0 0 11).current_index →
        (PlotApp.new exampleCoords [] [] 0 0 11).calculate_next_update_time
          = PlotApp.new exampleCoords [] [] 0 0 11) ∧
      ((PlotApp.new exampleCoords [] [] 0 0 11).run_race_data = [] →
        ((PlotApp.new exampleCoords [] [] 0 0 11).start 3 4).next_update_time
            = (PlotApp.new exampleCoords [] [] 0 0 11).next_update_time ∧
          ((PlotApp.new exampleCoords [] [] 0 0 11).start 3 4).current_index = 0 ∧
          ((PlotApp.new exampleCoords [] [] 0 0 11).start 3 4).start_datetime = 4 ∧
          ((PlotApp.new exampleCoords [] [] 0 0 11).start 3 4).start_time = 3 ∧
          ((PlotApp.new exampleCoords [] [] 0 0 11).reset 3 4).next_update_time
            = (PlotApp.new exampleCoords [] [] 0 0 11).next_update_time ∧
          ((PlotApp.new exampleCoords [] [] 0 0 11).reset 3 4).current_index = 0 ∧
          ((PlotApp.new exampleCoords [] [] 0 0 11).reset 3 4).start_datetime = 4 ∧
          ((PlotApp.new exampleCoords [] [] 0 0 11).reset 3 4).start_time = 3)) :=
  calculate_noop_when_cursor_out_of_bounds (PlotApp.new exampleCoords [] [] 0 0 11) 3 4

/-- C10: a tick changes at most `current_index` and `next_update_time`:
`race_started`, both start clocks, the event log, the grid coordinates
and the color table are unchanged. -/
theorem update_race_only_touches_cursor_and_deadline (s : PlotApp) (now : ℤ) :
    (s.update_race now).race_started = s.race_started ∧
      (s.update_race now).start_time = s.start_time ∧
      (s.update_race now).start_datetime = s.start_datetime ∧
      (s.update_race now).coordinates = s.coordinates ∧
      (s.update_race now).run_race_data = s.run_race_data ∧
      (s.update_race now).colors = s.colors := by
  by_cases hr : s.race_started = true
  · by_cases hd : s.next_update_time ≤ now
    · rw [update_race_due s now hr hd]
      by_cases hlt : s.current_index + 1 < s.run_race_data.length
      · rw [if_pos hlt]
        exact ⟨by rw [calc_race_started], by rw [calc_start_time],
          by rw [calc_start_datetime], by rw [calc_coordinates],
          by rw [calc_run_race_data], by rw [calc_colors]⟩
      · rw [if_neg hlt]
        exact ⟨rfl, rfl, rfl, rfl, rfl, rfl⟩
    · rw [update_race_early s now hr (by omega)]
      exact ⟨rfl, rfl, rfl, rfl, rfl, rfl⟩
  · rw [update_race_not_started s now (race_not_started_of_ne_true s hr)]
    exact ⟨rfl, rfl, rfl, rfl, rfl, rfl⟩

/-- C1 counterexample: a reachable state (`new` at 0, `START` at 0, one
tick at 150) has `current_index = 1 = len`; a further tick at 200 pushes
the cursor to 2, strictly beyond the log length — `update_race` has no
bounds check before the increment, so neither `cursor ≤ len` nor
"no further advancement at `cursor == len`" holds. -/
theorem tick_advances_cursor_past_length :
    exampleConsumed.current_index = exampleConsumed.run_race_data.length ∧
      exampleConsumed.race_started = true ∧
      exampleOverrun = exampleConsumed.update_race 200 ∧
      exampleOverrun.current_index = exampleConsumed.run_race_data.length + 1 := by
  refine ⟨by decide, by decide, rfl, by decide⟩

/-- C1 amended: the cursor is not bounded by the log length — while
running with `cursor ≥ len`, a tick at or after the (frozen) deadline
still increments the cursor by one and leaves `next_update_time`
untouched; the engine keeps running (no auto-stop, no looping) and the
composited lit state stays at the final state, because the consumed
prefix saturates at the whole log. -/
theorem tick_past_end_holds_final_state (s : PlotApp) (now : ℤ)
    (h : s.race_started = true) (hc : s.run_race_data.length ≤ s.current_index)
    (hd : s.next_update_time ≤ now) :
    (s.update_race now).current_index = s.current_index + 1 ∧
      (s.update_race now).next_update_time = s.next_update_time ∧
      (s.update_race now).race_started = true ∧
      led_colors (s.update_race now) = led_colors s ∧
      (s.update_race now).run_race_data.take (s.update_race now).current_index
        = s.run_race_data := by
  have key : s.update_race now = { s with current_index := s.current_index + 1 } := by
    rw [update_race_due s now h hd, if_neg (by omega)]
  rw [key]
  refine ⟨rfl, rfl, h, ?_, ?_⟩
  · show ledColorsMap s.run_race_data (s.current_index + 1) s.colors
        = ledColorsMap s.run_race_data s.current_index s.colors
    unfold ledColorsMap
    rw [List.take_of_length_le (by omega), List.take_of_length_le hc]
  · show s.run_race_data.take (s.current_index + 1) = s.run_race_data
    exact List.take_of_length_le (by omega)

/-- C1 amended witness: ticking `exampleConsumed` (cursor 1 = len,
deadline 100) at `now = 200`. -/
theorem tick_past_end_holds_final_state_witness :
    exampleConsumed.race_started = true ∧
      exampleConsumed.run_race_data.length ≤ exampleConsumed.current_index ∧
      exampleConsumed.next_update_time ≤ 200 ∧
      ((exampleConsumed.update_race 200).current_index
          = exampleConsumed.current_index + 1 ∧
        (exampleConsumed.update_race 200).next_update_time
          = exampleConsumed.next_update_time ∧
        (exampleConsumed.update_race 200).race_started = true ∧
        led_colors (exampleConsumed.update_race 200) = led_colors exampleConsumed ∧
        (exampleConsumed.update_race 200).run_race_data.take
            (exampleConsumed.update_race 200).current_index
          = exampleConsumed.run_race_data) :=
  ⟨by decide, by decide, by decide,
    tick_past_end_holds_final_state exampleConsumed 200 (by decide) (by decide) (by decide)⟩

/-! ### Concrete evaluation of the fixtures' compositor data -/

lemma exampleConsumed_coordinates : exampleConsumed.coordinates = exampleCoords := rfl

lemma led_colors_exampleConsumed :
    led_colors exampleConsumed = [((5000000, 5000000), Color32.WHITE)] := by
  have h1 : exampleConsumed.run_race_data = exampleEvents := rfl
  have h2 : exampleConsumed.current_index = 1 := by decide
  have h3 : exampleConsumed.colors = [] := rfl
  rw [led_colors, h1, h2, h3]
  have h5 : (5 : ℚ) = ((5 : ℤ) : ℚ) := by norm_num
  simp only [ledColorsMap, exampleEvents, List.take, List.foldl, insertKV, coordKey,
    colorGet, h5]
  rw [scale_f64_int] <;> norm_num [scale_factor]

lemma xBounds_exampleCoords : xBounds exampleCoords = (FVal.fin 0, FVal.fin 1) := by
  norm_num [xBounds, exampleCoords, List.foldl_cons, List.foldl_nil, FVal.fmin, FVal.fmax]

lemma yBounds_exampleCoords : yBounds exampleCoords = (FVal.fin 0, FVal.fin 1) := by
  norm_num [yBounds, exampleCoords, List.foldl_cons, List.foldl_nil, FVal.fmin, FVal.fmax]

lemma widthOf_exampleCoords : widthOf exampleCoords = FVal.fin 1 := by
  rw [widthOf, xBounds_exampleCoords]
  norm_num [FVal.fsub]

lemma heightOf_exampleCoords : heightOf exampleCoords = FVal.fin 1 := by
  rw [heightOf, yBounds_exampleCoords]
  norm_num [FVal.fsub]

/-! ### Claim theorems: frame compositor -/

/-- C6: the `led_colors` map considers exactly the events at indices
`0..current_index`, keyed by the quantized coordinate `coordKey`
(scale by 1 000 000 and truncate); its binding at any key is the color of
the most recent such event at that key (last write wins by sequence
order), and the map is unchanged under arbitrary rewriting of every
event's `date` field. -/
theorem led_colors_last_write_wins (s : PlotApp) (k : ℤ × ℤ) (f : RunRace → ℤ) :
    lookupKV (led_colors s) k
        = (lastEventAt s.run_race_data s.current_index k).map
            (fun r => colorGet s.colors r.driver_number) ∧
      ledColorsMap
          (s.run_race_data.map fun r =>
            RunRace.mk (f r) r.driver_number r.x_led r.y_led r.time_delta)
          s.current_index s.colors
        = led_colors s :=
  ⟨lookup_ledColorsMap s.run_race_data s.current_index s.colors k,
    ledColorsMap_date_irrelevant s.run_race_data s.current_index s.colors f⟩

/-- C5 counterexample: in the reachable state `exampleConsumed`, the frame
emits a non-black rectangle at horizontal position 4000 (the consumed
event's own position, dequantized), while the two grid points are drawn
at positions 0 and 800 — so a draw instruction is issued at a position
that belongs to no grid point, refuting "only grid points receive draw
instructions". -/
theorem led_draw_outside_grid_counterexample :
    (⟨FVal.fin 4000, FVal.fin (-2400), Color32.WHITE⟩ : DrawRect)
        ∈ drawInstructions exampleConsumed (FVal.fin 800) (FVal.fin 600) ∧
      Color32.WHITE ≠ Color32.BLACK ∧
      ∀ coord ∈ exampleConsumed.coordinates,
        normX (xBounds exampleConsumed.coordinates).1
            (widthOf exampleConsumed.coordinates) (FVal.fin 800) coord.x_led
          ≠ FVal.fin 4000 := by
  refine ⟨?_, by decide, ?_⟩
  · unfold drawInstructions ledDraws
    refine List.mem_append.mpr (Or.inr ?_)
    rw [led_colors_exampleConsumed, exampleConsumed_coordinates]
    simp only [List.map_cons, List.map_nil, List.mem_singleton]
    rw [xBounds_exampleCoords, yBounds_exampleCoords, widthOf_exampleCoords,
      heightOf_exampleCoords]
    norm_num [normX, normY, FVal.fsub, FVal.fdiv, FVal.fmul, scale_factor]
  · rw [exampleConsumed_coordinates]
    intro coord hc
    rw [xBounds_exampleCoords, widthOf_exampleCoords]
    have : coord = (⟨0, 0⟩ : LedCoordinate) ∨ coord = (⟨1, 1⟩ : LedCoordinate) := by
      simpa [exampleCoords] using hc
    rcases this with rfl | rfl <;>
      norm_num [normX, FVal.fsub, FVal.fdiv, FVal.fmul]

/-- C5 amended: each frame draws one black rectangle per grid point (the
unlit base pass) and, on top of them, one rectangle per entry of
`led_colors` — colored by the most recent consumed event at that
quantized coordinate (table color, white fallback) and positioned at the
event's own dequantized position; event rectangles are never matched
against grid points, so they may lie away from every grid point. -/
theorem draw_instructions_characterization (s : PlotApp) (aw ah : FVal) :
    drawInstructions s aw ah = gridDraws s aw ah ++ ledDraws s aw ah ∧
      (∀ d ∈ gridDraws s aw ah, d.color = Color32.BLACK) ∧
      (∀ d ∈ ledDraws s aw ah, ∃ k : ℤ × ℤ,
        lookupKV (led_colors s) k = some d.color ∧
          d.x = normX (xBounds s.coordinates).1 (widthOf s.coordinates) aw
              ((k.1 : ℚ) / (scale_factor : ℚ)) ∧
          d.y = normY (yBounds s.coordinates).1 (heightOf s.coordinates) ah
              ((k.2 : ℚ) / (scale_factor : ℚ))) ∧
      (∀ k : ℤ × ℤ, ∀ c : Color32, lookupKV (led_colors s) k = some c →
        (⟨normX (xBounds s.coordinates).1 (widthOf s.coordinates) aw
              ((k.1 : ℚ) / (scale_factor : ℚ)),
          normY (yBounds s.coordinates).1 (heightOf s.coordinates) ah
              ((k.2 : ℚ) / (scale_factor : ℚ)), c⟩ : DrawRect) ∈ ledDraws s aw ah) := by
  refine ⟨rfl, ?_, ?_, ?_⟩
  · intro d hd
    rcases List.mem_map.mp hd with ⟨coord, _, rfl⟩
    rfl
  · intro d hd
    rcases List.mem_map.mp hd with ⟨kv, hkv, rfl⟩
    exact ⟨kv.1, lookup_of_mem _ kv (led_colors_pairwise s) hkv, rfl, rfl⟩
  · intro k c hkc
    exact List.mem_map.mpr ⟨(k, c), mem_of_lookup _ k c hkc, rfl⟩

/-- C5 amended witness: the characterization instantiated on
`exampleConsumed` with an 800 × 600 canvas. -/
theorem draw_instructions_characterization_witness :
    drawInstructions exampleConsumed (FVal.fin 800) (FVal.fin 600)
        = gridDraws exampleConsumed (FVal.fin 800) (FVal.fin 600)
            ++ ledDraws exampleConsumed (FVal.fin 800) (FVal.fin 600) ∧
      (∀ d ∈ gridDraws exampleConsumed (FVal.fin 800) (FVal.fin 600),
        d.color = Color32.BLACK) ∧
      (∀ d ∈ ledDraws exampleConsumed (FVal.fin 800) (FVal.fin 600), ∃ k : ℤ × ℤ,
        lookupKV (led_colors exampleConsumed) k = some d.color ∧
          d.x = normX (xBounds exampleConsumed.coordinates).1
              (widthOf exampleConsumed.coordinates) (FVal.fin 800)
              ((k.1 : ℚ) / (scale_factor : ℚ)) ∧
          d.y = normY (yBounds exampleConsumed.coordinates).1
              (heightOf exampleConsumed.coordinates) (FVal.fin 600)
              ((k.2 : ℚ) / (scale_factor : ℚ))) ∧
      (∀ k : ℤ × ℤ, ∀ c : Color32, lookupKV (led_colors exampleConsumed) k = some c →
        (⟨normX (xBounds exampleConsumed.coordinates).1
              (widthOf exampleConsumed.coordinates) (FVal.fin 800)
              ((k.1 : ℚ) / (scale_factor : ℚ)),
          normY (yBounds exampleConsumed.coordinates).1
              (heightOf exampleConsumed.coordinates) (FVal.fin 600)
              ((k.2 : ℚ) / (scale_factor : ℚ)), c⟩ : DrawRect)
          ∈ ledDraws exampleConsumed (FVal.fin 800) (FVal.fin 600)) :=
  draw_instructions_characterization exampleConsumed (FVal.fin 800) (FVal.fin 600)

lemma degenerateApp_coordinates : degenerateApp.coordinates = degenerateCoords := rfl

lemma xBounds_degenerateCoords : xBounds degenerateCoords = (FVal.fin 1, FVal.fin 1) := by
  norm_num [xBounds, degenerateCoords, List.foldl_cons, List.foldl_nil, FVal.fmin, FVal.fmax]

/-- C4: on a zero-width layout (`max_x == min_x`, here both grid points at
`x_led = 1`), the normalization `(x - min_x) / width` does divide by the
zero width: `0.0 / 0.0` is IEEE `NaN`, so every grid point's horizontal
pixel position is `NaN` rather than any deterministic fallback value. -/
theorem degenerate_width_normalization_is_nan :
    widthOf degenerateApp.coordinates = FVal.fin 0 ∧
      ∀ d ∈ gridDraws degenerateApp (FVal.fin 800) (FVal.fin 600), d.x = FVal.nan := by
  constructor
  · rw [degenerateApp_coordinates, widthOf, xBounds_degenerateCoords]
    norm_num [FVal.fsub]
  · intro d hd
    unfold gridDraws at hd
    rw [degenerateApp_coordinates] at hd
    rcases List.mem_map.mp hd with ⟨coord, hc, rfl⟩
    have : coord = (⟨1, 0⟩ : LedCoordinate) ∨ coord = (⟨1, 5⟩ : LedCoordinate) := by
      simpa [degenerateCoords] using hc
    rw [widthOf, xBounds_degenerateCoords]
    rcases this with rfl | rfl <;>
      norm_num [normX, FVal.fsub, FVal.fdiv, FVal.fmul]
